import Mathlib

/-!
Verification development for the workout-video analysis core
(`backend/app/services/video_processor.py`, class `WorkoutVideoProcessor`).

Shallow embedding conventions:
* Python floats that only flow through comparisons, `min`/`max`, sums and
  divisions are modelled as `ℚ`; integer form scores as `ℤ`; frame indices
  as `ℕ`.
* The geometry module (`_calculate_hip_angle` etc.) performs `numpy`
  floating-point arithmetic whose division can produce NaN; it is modelled
  over `ℝ` extended with a NaN element (`NF`).
* Python exceptions that a code path can raise (the `KeyError` in
  `_calculate_phase_timings`) are modelled with `Option`; the orchestrator
  `process_video` returns `Except VideoError _`.
* Per-frame pose estimation is an external collaborator: its outcome for one
  frame is either "no pose detected" or a detected pose.  Downstream logic
  depends on a detected pose only through the three joint angles, which are
  pure functions of the keypoints, so `PoseResult.detected` carries the three
  angles directly.
-/

/-- Mirrors the dataclass `PoseLandmark` (x, y, z, visibility), with real
coordinates. -/
structure PoseLandmark where
  x : ℝ
  y : ℝ
  z : ℝ
  visibility : ℝ

/-- The nine named keypoints extracted by `_extract_keypoints`. -/
structure KeypointSet where
  nose : PoseLandmark
  left_shoulder : PoseLandmark
  right_shoulder : PoseLandmark
  left_hip : PoseLandmark
  right_hip : PoseLandmark
  left_knee : PoseLandmark
  right_knee : PoseLandmark
  left_ankle : PoseLandmark
  right_ankle : PoseLandmark

/-- Mirrors `_average_point`: componentwise mean of two landmarks. -/
noncomputable def average_point (p1 p2 : PoseLandmark) : PoseLandmark :=
  ⟨(p1.x + p2.x) / 2, (p1.y + p2.y) / 2, (p1.z + p2.z) / 2,
   (p1.visibility + p2.visibility) / 2⟩

/-- A numpy double that is either NaN or an ordinary value.  (Infinities are
not modelled: the only division in the geometry module has `|numerator| ≤
denominator` by Cauchy-Schwarz, so a zero denominator forces a zero
numerator and the only non-finite result reachable there is `0/0 = NaN`.) -/
inductive NF where
  | nan : NF
  | val : ℝ → NF

/-- Mirrors `np.linalg.norm` on a 2-vector. -/
noncomputable def np_norm2 (vx vy : ℝ) : ℝ := Real.sqrt (vx * vx + vy * vy)

/-- NumPy float division.  `0/0` yields NaN with a `RuntimeWarning`; it does
NOT raise `ZeroDivisionError`, so the `except (ZeroDivisionError, ValueError)`
handlers in `_calculate_hip_angle` / `_calculate_spine_angle` /
`_calculate_knee_angle` never fire on degenerate geometry. -/
noncomputable def np_div (x y : ℝ) : NF := if y = 0 then NF.nan else NF.val (x / y)

/-- Mirrors `np.clip(−, lo, hi)`; `np.clip` propagates NaN. -/
noncomputable def nf_clip (a : NF) (lo hi : ℝ) : NF :=
  match a with
  | NF.nan => NF.nan
  | NF.val x => NF.val (max lo (min hi x))

/-- Mirrors `np.arccos`; NaN propagates. -/
noncomputable def nf_arccos : NF → NF
  | NF.nan => NF.nan
  | NF.val x => NF.val (Real.arccos x)

/-- Mirrors `np.degrees`; NaN propagates. -/
noncomputable def nf_degrees : NF → NF
  | NF.nan => NF.nan
  | NF.val x => NF.val (x * 180 / Real.pi)

/-- Mirrors `_calculate_hip_angle`: angle between the thigh vector
(hip→knee) and the shin vector (knee→ankle), bilateral-averaged points.
The `try` body is embedded directly; its `except` fallback (`return 180.0`)
is unreachable because numpy division returns NaN instead of raising. -/
noncomputable def calculate_hip_angle (k : KeypointSet) : NF :=
  let hip := average_point k.left_hip k.right_hip
  let knee := average_point k.left_knee k.right_knee
  let ankle := average_point k.left_ankle k.right_ankle
  let tvx := knee.x - hip.x
  let tvy := knee.y - hip.y
  let svx := ankle.x - knee.x
  let svy := ankle.y - knee.y
  nf_degrees (nf_arccos (nf_clip
    (np_div (tvx * svx + tvy * svy) (np_norm2 tvx tvy * np_norm2 svx svy))
    (-1) 1))

/-- Mirrors `_calculate_spine_angle`: angle between the hip→shoulder vector
and the vertical unit vector `[0, -1]`; the dot product with the vertical is
`svx * 0 + svy * (-1)`.  The `except` fallback (`return 0.0`) is unreachable
for the same reason as in `calculate_hip_angle`. -/
noncomputable def calculate_spine_angle (k : KeypointSet) : NF :=
  let shoulder := average_point k.left_shoulder k.right_shoulder
  let hip := average_point k.left_hip k.right_hip
  let svx := shoulder.x - hip.x
  let svy := shoulder.y - hip.y
  nf_degrees (nf_arccos (nf_clip
    (np_div (svx * 0 + svy * (-1)) (np_norm2 svx svy))
    (-1) 1))

/-- Mirrors `_calculate_knee_angle`: angle at the knee between hip→knee
and ankle→knee vectors; `except` fallback (`return 180.0`) unreachable. -/
noncomputable def calculate_knee_angle (k : KeypointSet) : NF :=
  let hip := average_point k.left_hip k.right_hip
  let knee := average_point k.left_knee k.right_knee
  let ankle := average_point k.left_ankle k.right_ankle
  let tvx := hip.x - knee.x
  let tvy := hip.y - knee.y
  let svx := ankle.x - knee.x
  let svy := ankle.y - knee.y
  nf_degrees (nf_arccos (nf_clip
    (np_div (tvx * svx + tvy * svy) (np_norm2 tvx tvy * np_norm2 svx svy))
    (-1) 1))

/-- A keypoint set in which all nine landmarks are the identical point —
the degenerate geometry of the spec's testable property. -/
noncomputable def degenerate_keypoints : KeypointSet :=
  let p : PoseLandmark := ⟨1/2, 1/2, 0, 9/10⟩
  ⟨p, p, p, p, p, p, p, p, p⟩

/-- Mirrors the dataclass `FrameAnalysis`. -/
structure FrameAnalysis where
  frame_number : ℕ
  timestamp : ℚ
  hip_angle : ℚ
  spine_angle : ℚ
  knee_angle : ℚ
  form_score : ℤ
  is_good_form : Bool
  rep_phase : String
deriving DecidableEq

/-- Mirrors the dataclass `RepAnalysis`; the `phase_timings` dict is an
association list in the dict's insertion order. -/
structure RepAnalysis where
  rep_number : ℕ
  start_frame : ℕ
  end_frame : ℕ
  duration : ℚ
  max_depth_angle : ℚ
  average_form_score : ℚ
  form_issues : List String
  phase_timings : List (String × ℚ)
deriving DecidableEq

/-- The mutable rep-counting state of `WorkoutVideoProcessor`, as set up by
`reset_rep_counter`. -/
structure RepState where
  current_rep : ℕ
  is_in_bottom_position : Bool
  rep_start_frame : ℕ
  last_hip_angle : ℚ
  rep_analyses : List RepAnalysis
  current_rep_frames : List FrameAnalysis
deriving DecidableEq

/-- Mirrors `reset_rep_counter`. -/
def reset_state : RepState :=
  { current_rep := 0
    is_in_bottom_position := false
    rep_start_frame := 0
    last_hip_angle := 180
    rep_analyses := []
    current_rep_frames := [] }

/-- Mirrors `_determine_rep_phase`.  The source reads
`self.last_hip_angle` (passed here explicitly) but never updates it: the
statement `self.last_hip_angle = hip_angle` on the method's last line is
unreachable, because every branch of the preceding if/else returns. -/
def determine_rep_phase (last_hip_angle hip_angle : ℚ) (exercise_type : String) : String :=
  if exercise_type = "squat" then
    if hip_angle > 150 then "top"
    else if hip_angle < 90 then "bottom"
    else if hip_angle < last_hip_angle then "descent"
    else "ascent"
  else
    if hip_angle > 160 then "top"
    else if hip_angle < 100 then "bottom"
    else if hip_angle < last_hip_angle then "descent"
    else "ascent"

/-- Python `int(...)` on a float truncates toward zero. -/
def pytrunc (q : ℚ) : ℤ := if 0 ≤ q then ⌊q⌋ else -⌊-q⌋

/-- Mirrors `_calculate_form_score`. -/
def calculate_form_score (hip_angle spine_angle : ℚ) (exercise_type : String) : ℤ :=
  let score0 : ℚ := 100
  let spine_penalty : ℚ := max 0 (|spine_angle| - 5) * 2
  let score1 : ℚ := score0 - min spine_penalty 40
  let score2 : ℚ :=
    if exercise_type = "squat" then
      if hip_angle < 90 then score1 + min (max 0 ((90 - hip_angle) / 20 * 10)) 10
      else score1
    else score1
  max 0 (min 100 (pytrunc score2))

/-- Frame tallies backing the `phase_frames` dict in
`_calculate_phase_timings`. -/
structure PhaseFrames where
  descent : ℕ
  bottom : ℕ
  ascent : ℕ
  top : ℕ
deriving DecidableEq

/-- One iteration of the counting loop in `_calculate_phase_timings`:
`phase_frames[frame.rep_phase] += 1`.  A label outside the dict's four keys
raises `KeyError`, modelled as `none`. -/
def phase_bump (pf : PhaseFrames) (phase : String) : Option PhaseFrames :=
  if phase = "descent" then some { pf with descent := pf.descent + 1 }
  else if phase = "bottom" then some { pf with bottom := pf.bottom + 1 }
  else if phase = "ascent" then some { pf with ascent := pf.ascent + 1 }
  else if phase = "top" then some { pf with top := pf.top + 1 }
  else none

/-- The counting loop of `_calculate_phase_timings`. -/
def phase_counts (frames : List FrameAnalysis) : Option PhaseFrames :=
  frames.foldlM (fun pf f => phase_bump pf f.rep_phase) ⟨0, 0, 0, 0⟩

/-- Mirrors `_calculate_phase_timings`: per-phase frame count divided by
fps, in the dict's key order. -/
def calculate_phase_timings (frames : List FrameAnalysis) (fps : ℚ) :
    Option (List (String × ℚ)) :=
  (phase_counts frames).map (fun pf =>
    [("descent", (pf.descent : ℚ) / fps), ("bottom", (pf.bottom : ℚ) / fps),
     ("ascent", (pf.ascent : ℚ) / fps), ("top", (pf.top : ℚ) / fps)])

/-- Mirrors `_finalize_current_rep`: no-op on an empty buffer; otherwise
increments the rep counter, computes the rep statistics over the buffered
frames, appends the `RepAnalysis` and clears the buffer.  `none` models the
`KeyError` that `_calculate_phase_timings` raises on an unknown phase
label. -/
def finalize_current_rep (end_frame : ℕ) (fps : ℚ) (st : RepState) : Option RepState :=
  match st.current_rep_frames with
  | [] => some st
  | f :: fs =>
      let frames := f :: fs
      let new_count := st.current_rep + 1
      let duration : ℚ := (frames.length : ℚ) / fps
      let average_form_score : ℚ :=
        (((frames.map (fun fr => fr.form_score)).sum : ℤ) : ℚ) / (frames.length : ℚ)
      let min_hip_angle : ℚ := (fs.map (fun fr => fr.hip_angle)).foldl min f.hip_angle
      let max_spine_angle : ℚ := (fs.map (fun fr => fr.spine_angle)).foldl max f.spine_angle
      let form_issues : List String :=
        (if max_spine_angle > 15 then ["Excessive forward lean"] else []) ++
        (if min_hip_angle > 90 then ["Insufficient depth"] else [])
      (calculate_phase_timings frames fps).map (fun pt =>
        { st with
            current_rep := new_count
            rep_analyses := st.rep_analyses ++
              [{ rep_number := new_count
                 start_frame := st.rep_start_frame
                 end_frame := end_frame
                 duration := duration
                 max_depth_angle := min_hip_angle
                 average_form_score := average_form_score
                 form_issues := form_issues
                 phase_timings := pt }]
            current_rep_frames := [] })

/-- The bottom-entry threshold of `_update_rep_tracking`:
`70 if exercise_type == "squat" else 100`. -/
def entry_threshold (exercise_type : String) : ℚ :=
  if exercise_type = "squat" then 70 else 100

/-- Mirrors `_update_rep_tracking`: append the frame to the buffer
unconditionally; enter the bottom position below the entry threshold
(squat 70, otherwise 100), recording the rep start frame; complete the rep
above 150 while in the bottom position — note the source finalizes with the
hardcoded fps `30.0` (its comment: "Assume 30 FPS"), not the video's fps.
The entry threshold (`70 if exercise_type == "squat" else 100`) is factored
into `entry_threshold`. -/
def update_rep_tracking (analysis : FrameAnalysis) (exercise_type : String)
    (st : RepState) : Option RepState :=
  let st1 : RepState := { st with current_rep_frames := st.current_rep_frames ++ [analysis] }
  let threshold : ℚ := entry_threshold exercise_type
  if analysis.hip_angle < threshold ∧ st1.is_in_bottom_position = false then
    some { st1 with is_in_bottom_position := true, rep_start_frame := analysis.frame_number }
  else if analysis.hip_angle > 150 ∧ st1.is_in_bottom_position = true then
    finalize_current_rep analysis.frame_number 30
      { st1 with is_in_bottom_position := false }
  else
    some st1

/-- One run of the rep-segmentation state machine over a sequence of frame
analyses, from the reset state (no end-of-video finalization). -/
def run_segmentation (frames : List FrameAnalysis) (exercise_type : String) :
    Option RepState :=
  frames.foldlM (fun st f => update_rep_tracking f exercise_type st) reset_state

/-- A run of the state machine followed by the forced end-of-video
finalization of `process_video` (lines 166-167): if the buffer is
non-empty, finalize it with the total number of frames read as end frame
and the video's fps. -/
def run_with_final (frames : List FrameAnalysis) (exercise_type : String)
    (end_frame : ℕ) (fps : ℚ) : Option RepState :=
  (run_segmentation frames exercise_type).bind (fun st =>
    if st.current_rep_frames = [] then some st
    else finalize_current_rep end_frame fps st)

/-- Outcome of the external pose-estimation collaborator for one frame:
either no pose detected, or a detected pose abstracted to the three joint
angles (hip, spine, knee) the downstream pipeline depends on. -/
inductive PoseResult where
  | none_detected : PoseResult
  | detected : ℚ → ℚ → ℚ → PoseResult
deriving DecidableEq

/-- Mirrors `_process_frame` downstream of pose estimation: on no detected
pose, return `None` and touch no state; otherwise classify the frame
(phase, form score, good-form flag) and update rep tracking.  The outer
`Option` models exception propagation out of rep tracking. -/
def process_frame (pr : PoseResult) (frame_number : ℕ) (timestamp : ℚ)
    (exercise_type : String) (st : RepState) :
    Option (Option FrameAnalysis × RepState) :=
  match pr with
  | PoseResult.none_detected => some (none, st)
  | PoseResult.detected hip spine knee =>
      let rep_phase := determine_rep_phase st.last_hip_angle hip exercise_type
      let form_score := calculate_form_score hip spine exercise_type
      let analysis : FrameAnalysis :=
        { frame_number := frame_number
          timestamp := timestamp
          hip_angle := hip
          spine_angle := spine
          knee_angle := knee
          form_score := form_score
          is_good_form := decide (70 ≤ form_score)
          rep_phase := rep_phase }
      (update_rep_tracking analysis exercise_type st).map (fun st' => (some analysis, st'))

/-- Mirrors the frame loop of `process_video`: for each readable frame,
process it (timestamp `frame_number / fps` when `fps > 0`, else 0), append
the analysis to the sequence when one is produced (`if analysis:`), and
increment the frame counter.  The accumulator is
(analyses so far, rep state, frame number). -/
def frame_step (fps : ℚ) (exercise_type : String)
    (acc : List FrameAnalysis × RepState × ℕ) (pr : PoseResult) :
    Option (List FrameAnalysis × RepState × ℕ) :=
  (process_frame pr acc.2.2 (if 0 < fps then (acc.2.2 : ℚ) / fps else 0)
      exercise_type acc.2.1).map
    (fun res => (acc.1 ++ res.1.toList, res.2, acc.2.2 + 1))

def run_frames (frames : List PoseResult) (fps : ℚ) (exercise_type : String) :
    Option (List FrameAnalysis × RepState × ℕ) :=
  frames.foldlM (frame_step fps exercise_type) ([], reset_state, 0)

/-- Python `round(x, 1)`: round half to even at one decimal place. -/
def pyround1 (q : ℚ) : ℚ :=
  let t := q * 10
  let f := ⌊t⌋
  let r := t - (f : ℚ)
  let n : ℤ :=
    if r < 1/2 then f
    else if 1/2 < r then f + 1
    else if f % 2 = 0 then f else f + 1
  (n : ℚ) / 10

/-- Mirrors `_calculate_summary`: the empty-frame short-circuit returns the
two-key dict; otherwise the five summary statistics. -/
def calculate_summary (frames : List FrameAnalysis) (reps : List RepAnalysis) :
    List (String × ℚ) :=
  if frames = [] then [("average_form_score", 0), ("good_form_percentage", 0)]
  else
    let total_form_score : ℤ := (frames.map (fun f => f.form_score)).sum
    let average_form_score : ℚ := (total_form_score : ℚ) / (frames.length : ℚ)
    let good_form_frames : ℕ := (frames.filter (fun f => f.is_good_form)).length
    let good_form_percentage : ℚ := ((good_form_frames : ℚ) / (frames.length : ℚ)) * 100
    let average_rep_score : ℚ :=
      if reps = [] then 0
      else (reps.map (fun r => r.average_form_score)).sum / ((reps.length : ℕ) : ℚ)
    [("average_form_score", pyround1 average_form_score),
     ("good_form_percentage", pyround1 good_form_percentage),
     ("average_rep_score", pyround1 average_rep_score),
     ("total_frames_analyzed", (frames.length : ℚ)),
     ("frames_with_pose", (frames.length : ℚ))]

/-- The video resource as seen through the external frame-decoding
collaborator: existence at the path, openability, fps, reported total frame
count, and the per-frame pose-estimation outcomes for the readable
frames. -/
structure VideoResource where
  path_exists : Bool
  openable : Bool
  fps : ℚ
  total_frames : ℕ
  frames : List PoseResult
deriving DecidableEq

/-- Errors `process_video` can raise: `FileNotFoundError`, the
`ValueError` for an unopenable file, and `internal` for any exception
propagating out of frame processing (the `KeyError` path). -/
inductive VideoError where
  | fileNotFound : VideoError
  | cannotOpen : VideoError
  | internal : VideoError
deriving DecidableEq

/-- Mirrors the dataclass `VideoAnalysisResult`; `summary` is the dict as
an association list. -/
structure VideoAnalysisResult where
  video_id : String
  exercise_type : String
  total_frames : ℕ
  fps : ℚ
  duration : ℚ
  total_reps : ℕ
  average_form_score : ℚ
  reps : List RepAnalysis
  frame_analyses : List FrameAnalysis
  summary : List (String × ℚ)
deriving DecidableEq

/-- The part of `process_video` after the two resource checks: the frame
loop, the forced finalization of a non-empty buffer, summary computation
and result assembly.  The default `video_id` (a wall-clock timestamp in
the source, an external effect) is modelled by the constant `"video"`. -/
def process_video_body (v : VideoResource) (exercise_type : String)
    (video_id : Option String) : Except VideoError VideoAnalysisResult :=
    let fps := v.fps
    let duration : ℚ := if 0 < fps then (v.total_frames : ℚ) / fps else 0
    match run_frames v.frames fps exercise_type with
    | none => Except.error VideoError.internal
    | some (frame_analyses, st, frame_number) =>
        let final : Option RepState :=
          if st.current_rep_frames = [] then some st
          else finalize_current_rep frame_number fps st
        match final with
        | none => Except.error VideoError.internal
        | some st' =>
            let summary := calculate_summary frame_analyses st'.rep_analyses
            match summary.lookup "average_form_score" with
            | none => Except.error VideoError.internal
            | some avg =>
                Except.ok
                  { video_id := video_id.getD "video"
                    exercise_type := exercise_type
                    total_frames := v.total_frames
                    fps := fps
                    duration := duration
                    total_reps := st'.rep_analyses.length
                    average_form_score := avg
                    reps := st'.rep_analyses
                    frame_analyses := frame_analyses
                    summary := summary }

/-- Mirrors `process_video`: `FileNotFoundError` when the path does not
exist, `ValueError` when the file cannot be opened as video, otherwise the
analysis itself (`process_video_body`). -/
def process_video (v : VideoResource) (exercise_type : String)
    (video_id : Option String) : Except VideoError VideoAnalysisResult :=
  if v.path_exists = false then Except.error VideoError.fileNotFound
  else if v.openable = false then Except.error VideoError.cannotOpen
  else process_video_body v exercise_type video_id

/-- The claim's rep-number condition: rep numbers are `n, n+1, ...` down
the list. -/
def repNumbersFrom : ℕ → List RepAnalysis → Bool
  | _, [] => true
  | n, r :: rest => decide (r.rep_number = n) && repNumbersFrom (n + 1) rest

/-- The claim's window condition: consecutive reps' frame windows are
disjoint and strictly ordered (`end_frame` before the next
`start_frame`). -/
def windowsOk : List RepAnalysis → Bool
  | [] => true
  | [_] => true
  | a :: b :: rest => decide (a.end_frame < b.start_frame) && windowsOk (b :: rest)

/-- Frame numbers strictly increase down the list, all at least `n` —
the spec's invariant on a `FrameAnalysis` sequence. -/
def framesMonoFrom : ℕ → List FrameAnalysis → Bool
  | _, [] => true
  | n, f :: fs => decide (n ≤ f.frame_number) && framesMonoFrom (f.frame_number + 1) fs

/-- Modelled from the spec (claim C5's wording): the arithmetic mean of
`form_score` over exactly the frames whose index lies in
`[start_frame, end_frame]`, to be compared with what the code computes. -/
def spec_window_mean (frames : List FrameAnalysis) (s e : ℕ) : ℚ :=
  let w := frames.filter (fun f => decide (s ≤ f.frame_number) && decide (f.frame_number ≤ e))
  (((w.map (fun fr => fr.form_score)).sum : ℤ) : ℚ) / (w.length : ℚ)

/-- Total number of frames tallied in a `PhaseFrames` record. -/
def pf_total (pf : PhaseFrames) : ℕ := pf.descent + pf.bottom + pf.ascent + pf.top

/-- Invariant of the rep-segmentation state carried along a run whose
remaining input frames all have `frame_number ≥ n`: rep numbers count
`1, 2, ...`, the rep counter agrees with the emitted list, windows are
disjoint and ordered, and every emitted window ends before
`rep_start_frame` (when in the bottom position) resp. before `n`. -/
def SegInv (st : RepState) (n : ℕ) : Prop :=
  repNumbersFrom 1 st.rep_analyses = true ∧
  st.current_rep = st.rep_analyses.length ∧
  windowsOk st.rep_analyses = true ∧
  (st.is_in_bottom_position = true →
     (∀ r ∈ st.rep_analyses, r.end_frame < st.rep_start_frame) ∧ st.rep_start_frame < n) ∧
  (st.is_in_bottom_position = false → ∀ r ∈ st.rep_analyses, r.end_frame < n)

/-- Concrete input for the window-overlap counterexample: one completed
squat rep (enter bottom at frame 0, complete at frame 1), then a trailing
idle frame, then the forced end-of-video finalization. -/
def c1cFrames : List FrameAnalysis :=
  [⟨0, 0, 60, 5, 60, 85, true, "bottom"⟩,
   ⟨1, 1, 160, 5, 160, 90, true, "top"⟩,
   ⟨2, 2, 100, 5, 100, 100, true, "descent"⟩]

/-- Concrete input for the C1 witness: one completed squat rep. -/
def c1wFrames : List FrameAnalysis :=
  [⟨0, 0, 60, 5, 60, 85, true, "bottom"⟩,
   ⟨1, 1, 160, 5, 160, 90, true, "top"⟩]

def c1wState : RepState := (run_segmentation c1wFrames "squat").get (by decide)

def c1wState' : RepState := (run_with_final c1wFrames "squat" 2 30).get (by decide)

/-- Concrete input for the C4 counterexample: a squat rep completed by the
`in_bottom → idle` transition in a 60 fps video. -/
def c4cFrames : List FrameAnalysis :=
  [⟨0, 0, 60, 6, 60, 85, true, "bottom"⟩,
   ⟨1, 1, 160, 6, 160, 90, true, "top"⟩]

def c4wFrame : FrameAnalysis := ⟨1, 1, 160, 5, 160, 90, true, "top"⟩

def c4wState : RepState := ⟨0, true, 0, 180, [], [⟨0, 0, 60, 5, 60, 85, true, "bottom"⟩]⟩

def c4wState' : RepState := (update_rep_tracking c4wFrame "squat" c4wState).get (by decide)

/-- Concrete input for the C5 counterexample: an idle frame with form
score 70 is buffered before the rep's `start_frame`, so the emitted
average (over the buffer) differs from the claim's window mean. -/
def c5cFrames : List FrameAnalysis :=
  [⟨0, 0, 160, 5, 160, 70, true, "top"⟩,
   ⟨1, 1, 60, 5, 60, 100, true, "bottom"⟩,
   ⟨2, 2, 160, 5, 160, 100, true, "top"⟩]

def c5wState : RepState := ⟨0, true, 1, 180, [], [⟨1, 1, 60, 5, 60, 85, true, "bottom"⟩]⟩

def c5wState' : RepState := (finalize_current_rep 2 30 c5wState).get (by decide)

def c7wFrames : List FrameAnalysis :=
  [⟨0, 0, 60, 5, 60, 85, true, "bottom"⟩,
   ⟨1, 1, 160, 5, 160, 90, true, "top"⟩]

def c10wVideo : VideoResource :=
  ⟨true, true, 30, 5, [PoseResult.none_detected, PoseResult.none_detected]⟩

/-- Appending a rep whose number continues the count preserves the
rep-number condition. -/
lemma repNumbersFrom_append (l : List RepAnalysis) (n : ℕ) (r : RepAnalysis)
    (h : repNumbersFrom n l = true) (hr : r.rep_number = n + l.length) :
    repNumbersFrom n (l ++ [r]) = true := by
  induction l generalizing n with
  | nil =>
      simp only [List.length_nil, Nat.add_zero] at hr
      simp [repNumbersFrom, hr]
  | cons a t ih =>
      simp only [repNumbersFrom, Bool.and_eq_true, decide_eq_true_eq] at h
      simp only [List.cons_append, repNumbersFrom, Bool.and_eq_true, decide_eq_true_eq]
      refine ⟨h.1, ih (n + 1) h.2 ?_⟩
      simp only [List.length_cons] at hr
      omega

/-- Appending a rep whose window starts after every emitted window ends
preserves the window condition. -/
lemma windowsOk_append (l : List RepAnalysis) (r : RepAnalysis)
    (h : windowsOk l = true) (hr : ∀ x ∈ l, x.end_frame < r.start_frame) :
    windowsOk (l ++ [r]) = true := by
  induction l with
  | nil => simp [windowsOk]
  | cons a t ih =>
      cases t with
      | nil =>
          simp only [List.cons_append, List.nil_append, windowsOk, Bool.and_eq_true,
            decide_eq_true_eq]
          exact ⟨hr a (by simp), trivial⟩
      | cons b t' =>
          simp only [windowsOk, Bool.and_eq_true, decide_eq_true_eq] at h
          simp only [List.cons_append, windowsOk, Bool.and_eq_true, decide_eq_true_eq]
          refine ⟨h.1, ?_⟩
          have := ih h.2 (fun x hx => hr x (List.mem_cons_of_mem a hx))
          simpa using this

/-- What `finalize_current_rep` produces on a non-empty buffer, projected
onto the fields the claims need. -/
lemma finalize_spec (end_frame : ℕ) (fps : ℚ) (st st' : RepState)
    (hne : st.current_rep_frames ≠ [])
    (h : finalize_current_rep end_frame fps st = some st') :
    ∃ r pf,
      phase_counts st.current_rep_frames = some pf ∧
      st'.rep_analyses = st.rep_analyses ++ [r] ∧
      st'.current_rep = st.current_rep + 1 ∧
      st'.current_rep_frames = [] ∧
      st'.is_in_bottom_position = st.is_in_bottom_position ∧
      st'.rep_start_frame = st.rep_start_frame ∧
      st'.last_hip_angle = st.last_hip_angle ∧
      r.rep_number = st.current_rep + 1 ∧
      r.start_frame = st.rep_start_frame ∧
      r.end_frame = end_frame ∧
      r.duration = (st.current_rep_frames.length : ℚ) / fps ∧
      r.average_form_score =
        (((st.current_rep_frames.map (fun fr => fr.form_score)).sum : ℤ) : ℚ) /
          (st.current_rep_frames.length : ℚ) ∧
      r.phase_timings = [("descent", (pf.descent : ℚ) / fps), ("bottom", (pf.bottom : ℚ) / fps),
        ("ascent", (pf.ascent : ℚ) / fps), ("top", (pf.top : ℚ) / fps)] := by
  cases hb : st.current_rep_frames with
  | nil => exact absurd hb hne
  | cons f fs =>
      rw [finalize_current_rep, hb] at h
      simp only [calculate_phase_timings] at h
      cases hpc : phase_counts (f :: fs) with
      | none => rw [hpc] at h; simp at h
      | some pf =>
          rw [hpc] at h
          simp only [Option.map_some', Option.some.injEq] at h
          subst h
          exact ⟨_, pf, rfl, rfl, rfl, rfl, rfl, rfl, rfl, rfl, rfl, rfl, rfl, rfl, rfl⟩

/-- One step of the state machine preserves `SegInv`, advancing the frame
bound past the processed frame. -/
lemma update_inv (f : FrameAnalysis) (ex : String) (st st' : RepState) (n : ℕ)
    (hinv : SegInv st n) (hn : n ≤ f.frame_number)
    (h : update_rep_tracking f ex st = some st') :
    SegInv st' (f.frame_number + 1) := by
  unfold SegInv at hinv
  obtain ⟨h1, h2, h3, h4, h5⟩ := hinv
  simp only [update_rep_tracking] at h
  split at h
  case isTrue hc =>
    simp only [Option.some.injEq] at h
    subst h
    unfold SegInv
    refine ⟨h1, h2, h3, ?_, ?_⟩
    · intro _
      refine ⟨fun r hr => lt_of_lt_of_le (h5 hc.2 r hr) hn, Nat.lt_succ_self _⟩
    · intro hx
      simp at hx
  case isFalse hc =>
    split at h
    case isTrue hc2 =>
      obtain ⟨r, pf, _, hreps, hcur, hbuf, hbot, hstart, _, hnum, hrstart, hrend, _, _, _⟩ :=
        finalize_spec f.frame_number 30 _ st' (by simp) h
      have hnum' : r.rep_number = st.current_rep + 1 := hnum
      have hreps' : st'.rep_analyses = st.rep_analyses ++ [r] := hreps
      have hcur' : st'.current_rep = st.current_rep + 1 := hcur
      have hbot' : st'.is_in_bottom_position = false := hbot
      have hstart' : st'.rep_start_frame = st.rep_start_frame := hstart
      have hrend' : r.end_frame = f.frame_number := hrend
      have hrstart' : r.start_frame = st.rep_start_frame := hrstart
      obtain ⟨hwin, hbound⟩ := h4 hc2.2
      unfold SegInv
      refine ⟨?_, ?_, ?_, ?_, ?_⟩
      · rw [hreps']
        exact repNumbersFrom_append _ _ _ h1 (by rw [hnum', h2]; omega)
      · rw [hcur', hreps', h2]
        simp
      · rw [hreps']
        refine windowsOk_append _ _ h3 ?_
        intro x hx
        rw [hrstart']
        exact hwin x hx
      · intro hx
        rw [hbot'] at hx
        simp at hx
      · intro _
        intro x hx
        rw [hreps'] at hx
        rcases List.mem_append.mp hx with hx' | hx'
        · have := hwin x hx'
          omega
        · have hxr : x = r := by simpa using hx'
          rw [hxr, hrend']
          omega
    case isFalse hc2 =>
      simp only [Option.some.injEq] at h
      subst h
      unfold SegInv
      refine ⟨h1, h2, h3, ?_, ?_⟩
      · intro hx
        obtain ⟨ha, hb2⟩ := h4 hx
        refine ⟨fun r hr => ha r hr, ?_⟩
        show st.rep_start_frame < f.frame_number + 1
        omega
      · intro hx
        intro r hr
        exact lt_of_lt_of_le (h5 hx r hr) (by omega)

/-- `SegInv` holds after folding the machine over any in-order frame
sequence. -/
lemma run_inv (ex : String) : ∀ (frames : List FrameAnalysis) (st : RepState) (n : ℕ)
    (st' : RepState), SegInv st n → framesMonoFrom n frames = true →
    frames.foldlM (fun s f => update_rep_tracking f ex s) st = some st' →
    ∃ m, SegInv st' m := by
  intro frames
  induction frames with
  | nil =>
      intro st n st' hinv _ h
      simp only [List.foldlM_nil] at h
      cases h
      exact ⟨n, hinv⟩
  | cons f fs ih =>
      intro st n st' hinv hmono h
      rw [List.foldlM_cons] at h
      simp only [framesMonoFrom, Bool.and_eq_true, decide_eq_true_eq] at hmono
      cases hu : update_rep_tracking f ex st with
      | none => rw [hu] at h; simp at h
      | some st1 =>
          rw [hu] at h
          replace h : fs.foldlM (fun s f => update_rep_tracking f ex s) st1 = some st' := h
          exact ih st1 (f.frame_number + 1) st'
            (update_inv f ex st st1 n hinv hmono.1 hu) hmono.2 h

/-- C1 (amended): for every in-order `FrameAnalysis` sequence fed to the
rep-segmentation machine, the emitted `rep_number` sequence is `1..N` in
order with no gaps — both without and with the forced end-of-video
finalization — and the rep windows are pairwise disjoint and strictly
ordered for the reps emitted by the `in_bottom → idle` transition (i.e. for
the whole output of a run without the forced finalization).  The original
claim's window condition fails for the forced trailing rep, which can reuse
a stale `rep_start_frame` (see the counterexample). -/
theorem c1_amended (frames : List FrameAnalysis) (ex : String) (end_frame : ℕ) (fps : ℚ)
    (st st' : RepState)
    (hmono : framesMonoFrom 0 frames = true)
    (h1 : run_segmentation frames ex = some st)
    (h2 : run_with_final frames ex end_frame fps = some st') :
    repNumbersFrom 1 st.rep_analyses = true ∧ windowsOk st.rep_analyses = true ∧
    repNumbersFrom 1 st'.rep_analyses = true := by
  have base : SegInv reset_state 0 := by
    unfold SegInv reset_state
    exact ⟨rfl, rfl, rfl, fun hx => by simp at hx, fun _ r hr => by simp at hr⟩
  obtain ⟨m, hinv⟩ := run_inv ex frames reset_state 0 st base hmono h1
  unfold SegInv at hinv
  obtain ⟨i1, i2, i3, _, _⟩ := hinv
  refine ⟨i1, i3, ?_⟩
  unfold run_with_final at h2
  rw [h1] at h2
  replace h2 : (if st.current_rep_frames = [] then some st
      else finalize_current_rep end_frame fps st) = some st' := h2
  split at h2
  · cases h2
    exact i1
  case isFalse hne =>
    obtain ⟨r, pf, _, hreps, _, _, _, _, _, hnum, _, _, _, _, _⟩ :=
      finalize_spec end_frame fps st st' hne h2
    rw [hreps]
    exact repNumbersFrom_append _ _ _ i1 (by rw [hnum, i2]; omega)

/-- C1 counterexample: on the in-order squat sequence `c1cFrames`
(hip angles 60, 160, 100 at frames 0, 1, 2) with the forced end-of-video
finalization at frame count 3, the machine emits reps numbered 1, 2 with
windows [0,1] and [0,3]: the rep numbers are correct but the second
window overlaps the first instead of starting after it, refuting the
claim's window condition. -/
theorem c1_counterexample :
    framesMonoFrom 0 c1cFrames = true ∧
    (run_with_final c1cFrames "squat" 3 30).map (fun st =>
        (repNumbersFrom 1 st.rep_analyses, windowsOk st.rep_analyses,
         st.rep_analyses.map (fun r => (r.start_frame, r.end_frame)))) =
      some (true, false, [(0, 1), (0, 3)]) := by
  constructor
  · decide
  · decide

/-- C1 witness: the amended theorem applied to the concrete two-frame
squat rep `c1wFrames`. -/
theorem c1_amended_witness :
    repNumbersFrom 1 c1wState.rep_analyses = true ∧
    windowsOk c1wState.rep_analyses = true ∧
    repNumbersFrom 1 c1wState'.rep_analyses = true :=
  c1_amended c1wFrames "squat" 2 30 c1wState c1wState' (by decide)
    (Option.some_get _).symm (Option.some_get _).symm

/-- C4 (amended): a rep finalized on the `in_bottom → idle` transition
(`hip_angle > 150` while in the bottom position) has duration equal to the
buffered frame count divided by the hardcoded `30.0` fps ("Assume 30 FPS"
in the source), and each phase timing equal to that phase's buffered frame
count divided by `30.0` — not by the video's actual fps, as the original
claim states (see the counterexample at 60 fps). -/
theorem c4_amended (f : FrameAnalysis) (ex : String) (st st' : RepState)
    (hb : st.is_in_bottom_position = true) (hh : f.hip_angle > 150)
    (h : update_rep_tracking f ex st = some st') :
    (st'.rep_analyses.getLast?).map (fun r => (r.duration, r.phase_timings)) =
      (phase_counts (st.current_rep_frames ++ [f])).map (fun pf =>
        (((st.current_rep_frames.length + 1 : ℕ) : ℚ) / 30,
         [("descent", (pf.descent : ℚ) / 30), ("bottom", (pf.bottom : ℚ) / 30),
          ("ascent", (pf.ascent : ℚ) / 30), ("top", (pf.top : ℚ) / 30)])) := by
  simp only [update_rep_tracking] at h
  split at h
  case isTrue hc => simp [hb] at hc
  case isFalse hc =>
    split at h
    case isFalse hc2 => exact absurd ⟨hh, by simp [hb]⟩ hc2
    case isTrue hc2 =>
      obtain ⟨r, pf, hpc, hreps, _, _, _, _, _, _, _, _, hdur, _, hpt⟩ :=
        finalize_spec f.frame_number 30 _ st' (by simp) h
      have hreps' : st'.rep_analyses = st.rep_analyses ++ [r] := hreps
      have hpc' : phase_counts (st.current_rep_frames ++ [f]) = some pf := hpc
      have hdur' : r.duration = (((st.current_rep_frames ++ [f]).length : ℕ) : ℚ) / 30 := hdur
      have hpt' : r.phase_timings =
          [("descent", (pf.descent : ℚ) / 30), ("bottom", (pf.bottom : ℚ) / 30),
           ("ascent", (pf.ascent : ℚ) / 30), ("top", (pf.top : ℚ) / 30)] := hpt
      rw [hreps', List.getLast?_concat, hpc']
      simp [hdur', hpt']

/-- C4 counterexample: in a 60 fps video, the squat rep of `c4cFrames`
completed through the `in_bottom → idle` transition gets duration
`2/30 = 1/15` (hardcoded 30 fps), not `2/60` as the claim's
"divided by the video's fps" requires. -/
theorem c4_counterexample :
    (run_with_final c4cFrames "squat" 2 60).map (fun st =>
        st.rep_analyses.map (fun r => r.duration)) = some [1/15] ∧
    ¬((1 : ℚ) / 15 = 2 / 60) := by
  constructor
  · norm_num [run_with_final, run_segmentation, List.foldlM, update_rep_tracking,
      entry_threshold, finalize_current_rep, calculate_phase_timings, phase_counts,
      phase_bump, reset_state, c4cFrames]
    rfl
  · norm_num

/-- C4 witness: the amended theorem applied to a concrete one-buffered-frame
state completed by frame `c4wFrame`. -/
theorem c4_amended_witness :
    (c4wState'.rep_analyses.getLast?).map (fun r => (r.duration, r.phase_timings)) =
      (phase_counts (c4wState.current_rep_frames ++ [c4wFrame])).map (fun pf =>
        (((c4wState.current_rep_frames.length + 1 : ℕ) : ℚ) / 30,
         [("descent", (pf.descent : ℚ) / 30), ("bottom", (pf.bottom : ℚ) / 30),
          ("ascent", (pf.ascent : ℚ) / 30), ("top", (pf.top : ℚ) / 30)])) :=
  c4_amended c4wFrame "squat" c4wState c4wState' rfl (by decide) (Option.some_get _).symm

/-- C5 (amended): a finalized `RepAnalysis`'s `average_form_score` equals
the arithmetic mean of `form_score` over the frames buffered for that rep —
every frame since the previous finalization, which can include idle frames
preceding the rep's `start_frame` — not over exactly the frames in
`[start_frame, end_frame]` as the original claim states (see the
counterexample). -/
theorem c5_amended (end_frame : ℕ) (fps : ℚ) (st st' : RepState)
    (hne : st.current_rep_frames ≠ [])
    (h : finalize_current_rep end_frame fps st = some st') :
    st'.rep_analyses.length = st.rep_analyses.length + 1 ∧
    (st'.rep_analyses.getLast?).map (fun r => r.average_form_score) =
      some ((((st.current_rep_frames.map (fun fr => fr.form_score)).sum : ℤ) : ℚ) /
        (st.current_rep_frames.length : ℚ)) := by
  obtain ⟨r, pf, _, hreps, _, _, _, _, _, _, _, _, _, havg, _⟩ :=
    finalize_spec end_frame fps st st' hne h
  constructor
  · rw [hreps]; simp
  · rw [hreps, List.getLast?_concat]
    simp [havg]

/-- C5 counterexample: on `c5cFrames` the machine buffers the idle frame 0
(form score 70) before the rep starts at frame 1, and emits
`average_form_score = (70+100+100)/3 = 90`, while the mean over the frames
in the emitted window `[1, 2]` is 100. -/
theorem c5_counterexample :
    (run_segmentation c5cFrames "squat").map (fun st =>
        st.rep_analyses.map (fun r => (r.start_frame, r.end_frame, r.average_form_score))) =
      some [(1, 2, 90)] ∧
    spec_window_mean c5cFrames 1 2 = 100 ∧ ((90 : ℚ) ≠ 100) := by
  refine ⟨?_, ?_, by norm_num⟩
  · norm_num [run_segmentation, List.foldlM, update_rep_tracking, entry_threshold,
      finalize_current_rep, calculate_phase_timings, phase_counts, phase_bump,
      reset_state, c5cFrames]
    rfl
  · norm_num [spec_window_mean, c5cFrames, List.filter]

/-- C5 witness: the amended theorem applied to a concrete one-frame
buffer. -/
theorem c5_amended_witness :
    c5wState'.rep_analyses.length = c5wState.rep_analyses.length + 1 ∧
    (c5wState'.rep_analyses.getLast?).map (fun r => r.average_form_score) =
      some ((((c5wState.current_rep_frames.map (fun fr => fr.form_score)).sum : ℤ) : ℚ) /
        (c5wState.current_rep_frames.length : ℚ)) :=
  c5_amended 2 30 c5wState c5wState' (by decide) (Option.some_get _).symm

/-- C3 (code bug): processing a squat frame with hip angle 120 from the
reset state leaves the stored previous-hip-angle at its initial 180.0, not
at the frame's hip angle 120 — the update `self.last_hip_angle = hip_angle`
in `_determine_rep_phase` is unreachable (it follows an if/else in which
every branch returns), so the state never tracks the previous frame. -/
theorem c3_code_bug :
    (process_frame (PoseResult.detected 120 5 120) 0 0 "squat" reset_state).map
        (fun p => p.2.last_hip_angle) = some 180 ∧ ((120 : ℚ) ≠ 180) := by
  constructor
  · decide
  · decide

/-- C6: for every finite hip and spine angle and any exercise-type string,
the computed form score lies in `[0, 100]` — the final
`max(0, min(100, int(score)))` clamp guarantees it. -/
theorem c6_form_score_bounds (hip spine : ℚ) (ex : String) :
    0 ≤ calculate_form_score hip spine ex ∧ calculate_form_score hip spine ex ≤ 100 := by
  simp only [calculate_form_score]
  constructor
  · exact le_max_left _ _
  · exact max_le (by norm_num) (min_le_left _ _)

/-- Counting loop of `_calculate_phase_timings`: when every label is one of
the four phase keys, the tallies accumulate without `KeyError` and their
total grows by one per frame. -/
lemma phase_counts_aux : ∀ (frames : List FrameAnalysis) (pf0 : PhaseFrames),
    (∀ f ∈ frames, f.rep_phase = "descent" ∨ f.rep_phase = "bottom" ∨
      f.rep_phase = "ascent" ∨ f.rep_phase = "top") →
    (frames.foldlM (fun pf f => phase_bump pf f.rep_phase) pf0).map pf_total =
      some (pf_total pf0 + frames.length) := by
  intro frames
  induction frames with
  | nil => intro pf0 _; simp [List.foldlM]
  | cons f fs ih =>
      intro pf0 hv
      rw [List.foldlM_cons]
      have hrest : ∀ g ∈ fs, g.rep_phase = "descent" ∨ g.rep_phase = "bottom" ∨
          g.rep_phase = "ascent" ∨ g.rep_phase = "top" :=
        fun g hg => hv g (List.mem_cons_of_mem f hg)
      have step : ∀ pf1 : PhaseFrames, phase_bump pf0 f.rep_phase = some pf1 →
          pf_total pf1 = pf_total pf0 + 1 →
          ((phase_bump pf0 f.rep_phase) >>= fun pf =>
            fs.foldlM (fun pf f => phase_bump pf f.rep_phase) pf).map pf_total =
          some (pf_total pf0 + (f :: fs).length) := by
        intro pf1 hb ht
        rw [hb]
        have hred : ((some pf1 : Option PhaseFrames) >>= fun pf =>
            fs.foldlM (fun pf f => phase_bump pf f.rep_phase) pf) =
            fs.foldlM (fun pf f => phase_bump pf f.rep_phase) pf1 := rfl
        rw [hred, ih pf1 hrest, ht]
        simp only [Option.some.injEq, List.length_cons]
        omega
      rcases hv f (List.mem_cons_self f fs) with hf | hf | hf | hf <;>
        exact step _ (by rw [hf]; rfl) (by simp only [pf_total]; omega)

/-- C7: the frame classifier's phase label is always one of descent,
bottom, ascent, top; and for any buffer whose labels are among those four,
the per-phase frame counts underlying `phase_timings` sum exactly to the
buffered frame count. -/
theorem c7_phase_partition :
    (∀ last_hip hip : ℚ, ∀ ex : String,
        determine_rep_phase last_hip hip ex = "descent" ∨
        determine_rep_phase last_hip hip ex = "bottom" ∨
        determine_rep_phase last_hip hip ex = "ascent" ∨
        determine_rep_phase last_hip hip ex = "top") ∧
    (∀ frames : List FrameAnalysis,
        (∀ f ∈ frames, f.rep_phase = "descent" ∨ f.rep_phase = "bottom" ∨
          f.rep_phase = "ascent" ∨ f.rep_phase = "top") →
        (phase_counts frames).map pf_total = some frames.length) := by
  constructor
  · intro last_hip hip ex
    unfold determine_rep_phase
    split_ifs <;> simp
  · intro frames hv
    have := phase_counts_aux frames ⟨0, 0, 0, 0⟩ hv
    simpa [phase_counts, pf_total] using this

/-- C7 witness: the partition theorem applied to the concrete buffer
`c7wFrames` (labels bottom, top), whose counts sum to its length 2. -/
theorem c7_witness :
    (phase_counts c7wFrames).map pf_total = some c7wFrames.length :=
  c7_phase_partition.2 c7wFrames (by decide)

/-- C2 (code bug): on a keypoint set whose nine landmarks coincide, all
difference vectors are zero, the norm product is `0`, and numpy computes
`0/0 = NaN` without raising — so `_calculate_hip_angle`,
`_calculate_spine_angle` and `_calculate_knee_angle` return NaN, not the
documented fallbacks 180.0, 0.0, 180.0 (their `except` handlers never
fire, since no `ZeroDivisionError` is raised). -/
theorem c2_code_bug :
    calculate_hip_angle degenerate_keypoints = NF.nan ∧
    calculate_spine_angle degenerate_keypoints = NF.nan ∧
    calculate_knee_angle degenerate_keypoints = NF.nan := by
  refine ⟨?_, ?_, ?_⟩ <;>
    simp [calculate_hip_angle, calculate_spine_angle, calculate_knee_angle,
      degenerate_keypoints, average_point, np_norm2, np_div, nf_clip, nf_arccos,
      nf_degrees, Real.sqrt_zero]

/-- The analysis body of `process_video` raises only the `internal`
(exception-propagation) error, never the not-found or cannot-open ones. -/
lemma body_errors (v : VideoResource) (ex : String) (vid : Option String)
    (e : VideoError) (h : process_video_body v ex vid = Except.error e) :
    e = VideoError.internal := by
  unfold process_video_body at h
  dsimp only at h
  cases hrf : run_frames v.frames v.fps ex with
  | none =>
      rw [hrf] at h
      cases h
      rfl
  | some t =>
      obtain ⟨fas, st, fn⟩ := t
      rw [hrf] at h
      dsimp only at h
      by_cases hbuf : st.current_rep_frames = []
      · rw [if_pos hbuf] at h
        dsimp only at h
        cases hlk : List.lookup "average_form_score" (calculate_summary fas st.rep_analyses) with
        | none => rw [hlk] at h; cases h; rfl
        | some avg => rw [hlk] at h; cases h
      · rw [if_neg hbuf] at h
        cases hfin : finalize_current_rep fn v.fps st with
        | none => rw [hfin] at h; cases h; rfl
        | some st' =>
            rw [hfin] at h
            dsimp only at h
            cases hlk : List.lookup "average_form_score" (calculate_summary fas st'.rep_analyses) with
            | none => rw [hlk] at h; cases h; rfl
            | some avg => rw [hlk] at h; cases h

/-- C8: `process_video` fails with the not-found error exactly when the
path does not exist, and with the decode (cannot-open) error exactly when
the path exists but the resource cannot be opened as video.  Failures are
`Except.error` values, which by construction carry no partial
`VideoAnalysisResult`. -/
theorem c8_error_cases (v : VideoResource) (ex : String) (vid : Option String) :
    ((process_video v ex vid = Except.error VideoError.fileNotFound) ↔
      v.path_exists = false) ∧
    ((process_video v ex vid = Except.error VideoError.cannotOpen) ↔
      (v.path_exists = true ∧ v.openable = false)) := by
  cases hpe : v.path_exists with
  | false => constructor <;> simp [process_video, hpe]
  | true =>
    cases hop : v.openable with
    | false => constructor <;> simp [process_video, hpe, hop]
    | true =>
      constructor
      · simp only [process_video, hpe, hop]
        norm_num
        intro h
        exact absurd (body_errors v ex vid _ h) (by simp)
      · simp only [process_video, hpe, hop]
        norm_num
        intro h
        exact absurd (body_errors v ex vid _ h) (by simp)

/-- C9: a frame on which the pose-estimation collaborator reports no
detected pose is skipped entirely by the orchestrator's frame loop: it
contributes no `FrameAnalysis` to the accumulated sequence and leaves the
rep-segmentation state unchanged (only the frame counter advances). -/
theorem c9_no_pose (frames : List PoseResult) (fps : ℚ) (ex : String)
    (fas : List FrameAnalysis) (st : RepState) (fn : ℕ)
    (h : run_frames frames fps ex = some (fas, st, fn)) :
    run_frames (frames ++ [PoseResult.none_detected]) fps ex = some (fas, st, fn + 1) := by
  unfold run_frames at h ⊢
  rw [List.foldlM_append, h]
  show frame_step fps ex (fas, st, fn) PoseResult.none_detected >>= _ = _
  simp [frame_step, process_frame]

/-- C9 witness: a one-frame video whose only frame has no detected pose
yields no analyses and the reset state, with the frame counter at 1. -/
theorem c9_witness :
    run_frames [PoseResult.none_detected] 30 "squat" = some ([], reset_state, 1) :=
  c9_no_pose [] 30 "squat" [] reset_state 0 rfl

/-- Folding the frame loop over frames that all report "no pose detected"
leaves the analyses and the rep state untouched and counts the frames. -/
lemma foldl_all_none (fps : ℚ) (ex : String) : ∀ (frames : List PoseResult)
    (fas : List FrameAnalysis) (st : RepState) (k : ℕ),
    (∀ pr ∈ frames, pr = PoseResult.none_detected) →
    frames.foldlM (frame_step fps ex) (fas, st, k) = some (fas, st, k + frames.length) := by
  intro frames
  induction frames with
  | nil => intro fas st k _; simp [List.foldlM]
  | cons p ps ih =>
      intro fas st k hv
      have hp : p = PoseResult.none_detected := hv p (List.mem_cons_self p ps)
      subst hp
      rw [List.foldlM_cons]
      have hstep : frame_step fps ex (fas, st, k) PoseResult.none_detected =
          some (fas, st, k + 1) := by
        simp [frame_step, process_frame]
      rw [hstep]
      show ps.foldlM (frame_step fps ex) (fas, st, k + 1) = _
      rw [ih fas st (k + 1) (fun pr hpr => hv pr (List.mem_cons_of_mem _ hpr))]
      simp only [Option.some.injEq, Prod.mk.injEq, List.length_cons, eq_self_iff_true,
        true_and, and_true]
      omega

/-- C10: when the resource exists and opens but no frame yields a detected
pose (in particular when there are no readable frames at all),
`process_video` succeeds and returns a result with `total_reps = 0`, empty
`reps` and `frame_analyses`, `average_form_score = 0`, and a summary
reporting average form score 0 and good-form percentage 0. -/
theorem c10_empty_run (v : VideoResource) (ex : String) (vid : Option String)
    (h1 : v.path_exists = true) (h2 : v.openable = true)
    (h3 : ∀ pr ∈ v.frames, pr = PoseResult.none_detected) :
    (process_video v ex vid).map (fun r =>
        (r.total_reps, r.reps, r.frame_analyses, r.average_form_score, r.summary)) =
      Except.ok (0, ([] : List RepAnalysis), ([] : List FrameAnalysis), (0 : ℚ),
        [("average_form_score", (0 : ℚ)), ("good_form_percentage", (0 : ℚ))]) := by
  have hrun : run_frames v.frames v.fps ex = some ([], reset_state, v.frames.length) := by
    unfold run_frames
    rw [foldl_all_none v.fps ex v.frames [] reset_state 0 h3]
    simp
  unfold process_video
  rw [h1, h2]
  simp only [Bool.true_eq_false, if_false]
  unfold process_video_body
  dsimp only
  rw [hrun]
  dsimp only
  rw [if_pos (by rfl)]
  dsimp only
  simp [calculate_summary, reset_state, List.lookup, Except.map]

/-- C10 witness: the theorem applied to a concrete openable 30 fps video
whose two readable frames both report no detected pose. -/
theorem c10_witness :
    (process_video c10wVideo "squat" none).map (fun r =>
        (r.total_reps, r.reps, r.frame_analyses, r.average_form_score, r.summary)) =
      Except.ok (0, ([] : List RepAnalysis), ([] : List FrameAnalysis), (0 : ℚ),
        [("average_form_score", (0 : ℚ)), ("good_form_percentage", (0 : ℚ))]) :=
  c10_empty_run c10wVideo "squat" none rfl rfl (by decide)
